import Mathlib

/-!
Verification of the gosnowflake file-staging transfer engine
(`storage_client.go`, `gcs_storage_client.go`).

The Go code is shallowly embedded as pure Lean functions.  Network I/O is
modelled with an explicit oracle: every primitive that performs an HTTP
request takes the `HttpResp` the network would deliver for that request;
the orchestrator loops take one bundle of responses per loop iteration.
Machine integers (`int`, `int64`) are modelled as `Int`; Go integer
division truncates toward zero, which is `Int.tdiv`.  `json.Marshal` /
`json.Unmarshal` of the encryption envelope are modelled symbolically: a
header value is either a raw string or the marshalled image of an
`encryptionData` record, and unmarshalling of an empty string fails just
as Go's `json.Unmarshal([]byte(""), _)` does.
-/

/-- Result statuses of a transfer (Go `resStatus` constants).
`emptyStatus` is the zero value of a fresh `fileMetadata`. -/
inductive ResultStatus where
  | emptyStatus
  | errStatus
  | uploaded
  | downloaded
  | skipped
  | renewToken
  | renewPresignedURL
  | notFoundFile
  | needRetry
  | needRetryWithLowerConcurrency
  deriving DecidableEq, Repr

/-- Errors produced by the embedded code (Go `error` values). -/
inductive GoError where
  /-- `fmt.Errorf("%v", resp.Status)` -/
  | statusError (status : String)
  /-- `strconv.Atoi` failure on a content-length header -/
  | atoiError (s : String)
  /-- `json.Unmarshal` of an empty byte slice: "unexpected end of JSON input" -/
  | jsonUnmarshalEmpty
  /-- failed `meta.client.(string)` interface conversion -/
  | clientTypeError
  /-- `fmt.Errorf("unkown error uploading %v", ...)` -/
  | unknownUploadError (name : String)
  deriving DecidableEq, Repr

/-- Go `encryptMetadata` (fields `key`, `iv`, `matdesc`). -/
structure encryptMetadata where
  key : String
  iv : String
  matdesc : String
  deriving DecidableEq, Repr

/-- Go `contentKey` (JSON fields `KeyId`, `EncryptionKey`, `Algorithm`). -/
structure contentKey where
  KeyID : String
  EncryptionKey : String
  Algorithm : String
  deriving DecidableEq, Repr

/-- Go `encryptionAgent`. -/
structure encryptionAgent where
  Protocol : String
  EncryptionAlgorithm : String
  deriving DecidableEq, Repr

/-- Go `keyMetadata`. -/
structure keyMetadata where
  EncryptionLibrary : String
  deriving DecidableEq, Repr

/-- Go `encryptionData`: the JSON envelope serialized into the
`x-goog-meta-encryptiondata` header. -/
structure encryptionData where
  EncryptionMode : String
  WrappedContentKey : contentKey
  EncryptionAgent : encryptionAgent
  ContentEncryptionIV : String
  KeyWrappingMetadata : keyMetadata
  deriving DecidableEq, Repr

/-- A header value: either a raw string (the empty string doubles as the
absent-header zero value of a Go `map[string]string` lookup), or the
`json.Marshal` image of an `encryptionData` record.  `.enc` is only ever
produced by marshalling, so unmarshalling it recovers the record. -/
inductive HdrVal where
  | str (s : String)
  | enc (e : encryptionData)
  deriving DecidableEq, Repr

/-- Go `fileHeader`. -/
structure fileHeader where
  digest : String
  contentLength : Int
  encryptionMetadata : Option encryptMetadata
  deriving DecidableEq, Repr

/-- The per-file transfer context (Go `fileMetadata`), restricted to the
fields the embedded functions read or write.  `client` models the opaque
`meta.client` handle: `some token` when it is a string (the GCS access
token, possibly empty), `none` when the `meta.client.(string)` interface
conversion would fail.  `getFileToStream` is `meta.options.GetFileToStream`. -/
structure fileMetadata where
  overwrite : Bool := false
  parallel : Int := 1
  noSleepingTime : Bool := false
  resStatus : ResultStatus := .emptyStatus
  lastError : Option GoError := none
  presignedURL : Option String := none
  client : Option String := none
  dstFileName : String := ""
  srcFileName : String := ""
  realSrcFileName : String := ""
  dstFileSize : Int := 0
  uploadSize : Int := 0
  srcFileSize : Int := 0
  dstCompressionType : Option String := none
  sha256Digest : String := ""
  encryptMeta : Option encryptMetadata := none
  lastMaxConcurrency : Int := 0
  getFileToStream : Bool := false
  gcsFileHeaderDigest : String := ""
  gcsFileHeaderContentLength : Int := 0
  gcsFileHeaderEncryptionMeta : Option encryptMetadata := none
  deriving DecidableEq, Repr

/-- An HTTP response as consumed by the GCS client: status code, the
`resp.Status` text, the response headers the code reads, the parsed
`resp.ContentLength` field, and the body size observed after copying. -/
structure HttpResp where
  statusCode : Nat
  status : String
  sfcDigest : String := ""
  contentLengthHdr : String := "0"
  encryptionDataHdr : HdrVal := .str ""
  matdescHdr : String := ""
  respContentLength : Int := 0
  bodySize : Int := 0
  deriving DecidableEq, Repr

/-- Go constants from `storage_client.go`. -/
def defaultConcurrency : Int := 1

/-- Go `defaultMaxRetry`. -/
def defaultMaxRetry : Nat := 5

/-- Header-name constants from `gcs_storage_client.go`. -/
def gcsMetadataPref : String := "x-goog-meta-"

/-- `gcsMetadataSfcDigest = gcsMetadataPrefix + sfcDigest`. -/
def gcsMetadataSfcDigest : String := gcsMetadataPref ++ "sfc-digest"

/-- `gcsMetadataMatdescKey`. -/
def gcsMetadataMatdescKey : String := gcsMetadataPref ++ "matdesc"

/-- `gcsMetadataEncryptionDataProp`. -/
def gcsMetadataEncryptionDataProp : String := gcsMetadataPref ++ "encryptiondata"

/-- `gcsFileHeaderDigest` (a key never inserted into the upload header map;
looking it up yields the zero value `""`). -/
def gcsFileHeaderDigestKey : String := "gcs-file-header-digest"

/-- `httpHeaderContentEncoding` (defined elsewhere in the repository as the
standard header name). -/
def httpHeaderContentEncoding : String := "Content-Encoding"

/-- Go `intMin` on `int`. -/
def intMin (a b : Int) : Int := if a < b then a else b

/-- Go `intMax` on `int`. -/
def intMax (a b : Int) : Int := if a > b then a else b

/-- `strconv.Atoi`: an optional sign followed by at least one decimal
digit; anything else is a parse error. -/
def goAtoi (s : String) : Option Int :=
  let cs := s.data
  let signAndDigits : Bool × List Char :=
    match cs with
    | '-' :: rest => (true, rest)
    | '+' :: rest => (false, rest)
    | _ => (false, cs)
  match signAndDigits.2 with
  | [] => none
  | ds =>
    if ds.all Char.isDigit then
      let n : Nat := ds.foldl (fun acc c => acc * 10 + (c.toNat - 48)) 0
      some (if signAndDigits.1 then -(n : Int) else (n : Int))
    else none

/-- Upsert into a Go `map[string]string` modelled as an association list. -/
def mapSet (m : List (String × HdrVal)) (k : String) (v : HdrVal) :
    List (String × HdrVal) :=
  match m with
  | [] => [(k, v)]
  | (k', v') :: rest => if k' = k then (k, v) :: rest else (k', v') :: mapSet rest k v

/-- Go map lookup returning the zero value `""` for a missing key. -/
def mapGet (m : List (String × HdrVal)) (k : String) : HdrVal :=
  match m with
  | [] => .str ""
  | (k', v) :: rest => if k' = k then v else mapGet rest k

/-- Lookup distinguishing a present key from an absent one. -/
def mapFind (m : List (String × HdrVal)) (k : String) : Option HdrVal :=
  match m with
  | [] => none
  | (k', v) :: rest => if k' = k then some v else mapFind rest k

/-- Read a header value as the string a Go `map[string]string` stores.
Keys holding a marshalled envelope are never read through this function
in the embedded code paths. -/
def hdrValString (v : HdrVal) : String :=
  match v with
  | .str s => s
  | .enc _ => ""

/-- `strings.ToLower` restricted to ASCII (the compression-format names it
is applied to are ASCII identifiers). -/
def goToLowerChar (c : Char) : Char :=
  if 'A' ≤ c ∧ c ≤ 'Z' then Char.ofNat (c.toNat + 32) else c

/-- `strings.ToLower` on a whole string. -/
def goToLower (s : String) : String := ⟨s.data.map goToLowerChar⟩

/-- The repeated transient-status test
`resp.StatusCode == 403 || 408 || 429 || 500 || 503`. -/
def isTransientCode (c : Nat) : Bool :=
  c == 403 || c == 408 || c == 429 || c == 500 || c == 503

/-- `snowflakeGcsClient.isTokenExpired`: `resp.StatusCode == 401`. -/
def isTokenExpired (resp : HttpResp) : Bool := resp.statusCode == 401

/-- The `encryptionData` literal built by `uploadFile` from
`meta.encryptMeta` (lines 181-196 of `gcs_storage_client.go`). -/
def mkEncryptionData (em : encryptMetadata) : encryptionData where
  EncryptionMode := "FullBlob"
  WrappedContentKey := { KeyID := "symmKey1", EncryptionKey := em.key, Algorithm := "AES_CBC_256" }
  EncryptionAgent := { Protocol := "1.0", EncryptionAlgorithm := "AES_CBC_256" }
  ContentEncryptionIV := em.iv
  KeyWrappingMetadata := { EncryptionLibrary := "Java 5.3.0" }

/-- `json.Unmarshal(gcsHeaders[gcsMetadataEncryptionDataProp], &meta.encryptMeta)`
(line 267): unmarshalling the empty string fails with "unexpected end of
JSON input"; unmarshalling a valid envelope succeeds but assigns none of
`encryptMetadata`'s unexported fields, leaving the old value unchanged. -/
def jsonUnmarshalIntoEncryptMeta (v : HdrVal) (old : Option encryptMetadata) :
    Except GoError (Option encryptMetadata) :=
  match v with
  | .str _ => .error .jsonUnmarshalEmpty
  | .enc _ => .ok old

/-- `getFileHeader` lines 111-127: parse the encryption envelope response
headers into an `encryptMetadata`.  An empty or unparseable
`encryptiondata` header leaves `encryptData` nil (the unmarshal error is
only logged), producing no metadata. -/
def parseEncryptionMeta (encHdr : HdrVal) (matdescHdr : String) :
    Option encryptMetadata :=
  match encHdr with
  | .str _ => none
  | .enc e =>
      some { key := e.WrappedContentKey.EncryptionKey
             iv := e.ContentEncryptionIV
             matdesc := if matdescHdr ≠ "" then matdescHdr else "" }

/-- Result of `snowflakeGcsClient.getFileHeader`: the mutated context, the
returned header and error, and whether an HTTP request was issued. -/
structure HeaderResult where
  meta : fileMetadata
  header : Option fileHeader
  err : Option GoError
  networkUsed : Bool
  deriving DecidableEq, Repr

/-- `snowflakeGcsClient.getFileHeader` (lines 43-136), with the HTTP
response the network would deliver passed explicitly.  URL generation is
modelled as always succeeding (`url.Parse` of a well-formed constant-scheme
string).  Note lines 90-91 set `lastError`/`errStatus` unconditionally for
every non-200 response before the per-code branches refine them. -/
def gcsGetFileHeader (meta : fileMetadata) (resp : HttpResp) : HeaderResult :=
  if meta.resStatus = .uploaded ∨ meta.resStatus = .downloaded then
    { meta := meta
      header := some { digest := meta.gcsFileHeaderDigest
                       contentLength := meta.gcsFileHeaderContentLength
                       encryptionMetadata := meta.gcsFileHeaderEncryptionMeta }
      err := none, networkUsed := false }
  else if meta.presignedURL.isSome then
    { meta := { meta with resStatus := .notFoundFile }
      header := none, err := none, networkUsed := false }
  else
    match meta.client with
    | none => { meta := meta, header := none, err := some .clientTypeError, networkUsed := false }
    | some _accessToken =>
      if resp.statusCode ≠ 200 then
        let meta := { meta with lastError := some (.statusError resp.status)
                                resStatus := .errStatus }
        if isTransientCode resp.statusCode then
          { meta := { meta with lastError := some (.statusError resp.status)
                                resStatus := .needRetry }
            header := none, err := some (.statusError resp.status), networkUsed := true }
        else if resp.statusCode = 404 then
          { meta := { meta with resStatus := .notFoundFile }
            header := none, err := some (.statusError resp.status), networkUsed := true }
        else if isTokenExpired resp then
          { meta := { meta with lastError := some (.statusError resp.status)
                                resStatus := .renewToken }
            header := none, err := some (.statusError resp.status), networkUsed := true }
        else
          { meta := meta, header := none
            err := some (.statusError resp.status), networkUsed := true }
      else
        match goAtoi resp.contentLengthHdr with
        | none =>
          { meta := meta, header := none
            err := some (.atoiError resp.contentLengthHdr), networkUsed := true }
        | some n =>
          { meta := { meta with resStatus := .uploaded }
            header := some { digest := resp.sfcDigest
                             contentLength := n
                             encryptionMetadata :=
                               parseEncryptionMeta resp.encryptionDataHdr resp.matdescHdr }
            err := none, networkUsed := true }

/-- The `gcsHeaders` request-header map built by `uploadFile`
(lines 164-203).  `accessToken` is `""` on the presigned-URL path. -/
def gcsUploadHeaders (meta : fileMetadata) (accessToken : String) :
    List (String × HdrVal) :=
  let contentEncoding :=
    match meta.dstCompressionType with
    | some name => goToLower name
    | none => ""
  let contentEncoding := if contentEncoding = "gzip" then "" else contentEncoding
  let h := mapSet [] httpHeaderContentEncoding (.str contentEncoding)
  let h := mapSet h gcsMetadataSfcDigest (.str meta.sha256Digest)
  let h := if accessToken ≠ "" then
             mapSet h "Authorization" (.str ("Bearer " ++ accessToken))
           else h
  match meta.encryptMeta with
  | some em =>
      let h := mapSet h gcsMetadataEncryptionDataProp (.enc (mkEncryptionData em))
      mapSet h gcsMetadataMatdescKey (.str em.matdesc)
  | none => h

/-- `snowflakeGcsClient.uploadFile` (lines 143-272) with the HTTP response
passed explicitly.  File/stream opening and the progress callback are
modelled as side-effect free; `json.Marshal` of the envelope never fails. -/
def gcsUploadFile (meta : fileMetadata) (resp : HttpResp) :
    fileMetadata × Option GoError :=
  match (match meta.presignedURL with
         | some _ => some ""
         | none => meta.client) with
  | none => (meta, some .clientTypeError)
  | some accessToken =>
    let gcsHeaders := gcsUploadHeaders meta accessToken
    if resp.statusCode ≠ 200 then
      if isTransientCode resp.statusCode then
        ({ meta with lastError := some (.statusError resp.status)
                     resStatus := .needRetry },
         some (.statusError resp.status))
      else if accessToken = "" ∧ resp.statusCode = 400 ∧ meta.lastError = none then
        ({ meta with lastError := some (.statusError resp.status)
                     resStatus := .renewPresignedURL },
         some (.statusError resp.status))
      else if accessToken ≠ "" ∧ isTokenExpired resp then
        ({ meta with lastError := some (.statusError resp.status)
                     resStatus := .renewToken },
         some (.statusError resp.status))
      else
        ({ meta with lastError := some (.statusError resp.status) },
         some (.statusError resp.status))
    else
      let meta := { meta with
        dstFileSize := meta.uploadSize
        resStatus := .uploaded
        gcsFileHeaderDigest := hdrValString (mapGet gcsHeaders gcsFileHeaderDigestKey)
        gcsFileHeaderContentLength := meta.uploadSize }
      match jsonUnmarshalIntoEncryptMeta
              (mapGet gcsHeaders gcsMetadataEncryptionDataProp) meta.encryptMeta with
      | .error e => (meta, some e)
      | .ok em' =>
        ({ meta with encryptMeta := em', gcsFileHeaderEncryptionMeta := em' }, none)

/-- `snowflakeGcsClient.nativeDownloadFile` (lines 275-379) with the HTTP
response passed explicitly.  Body copying and the destination-file `stat`
are modelled by `resp.bodySize`. -/
def gcsNativeDownloadFile (meta : fileMetadata) (resp : HttpResp) :
    fileMetadata × Option GoError :=
  let presignedEmpty :=
    match meta.presignedURL with
    | none => true
    | some u => u = ""
  match (if presignedEmpty then meta.client else some "") with
  | none => (meta, some .clientTypeError)
  | some accessToken =>
    if resp.statusCode ≠ 200 then
      if isTransientCode resp.statusCode then
        ({ meta with lastError := some (.statusError resp.status)
                     resStatus := .needRetry },
         some (.statusError resp.status))
      else if resp.statusCode = 404 then
        ({ meta with lastError := some (.statusError resp.status)
                     resStatus := .notFoundFile },
         some (.statusError resp.status))
      else if accessToken = "" ∧ resp.statusCode = 400 ∧ meta.lastError = none then
        ({ meta with lastError := some (.statusError resp.status)
                     resStatus := .renewPresignedURL },
         some (.statusError resp.status))
      else if accessToken ≠ "" ∧ isTokenExpired resp then
        ({ meta with lastError := some (.statusError resp.status)
                     resStatus := .renewToken },
         some (.statusError resp.status))
      else
        ({ meta with lastError := some (.statusError resp.status) },
         some (.statusError resp.status))
    else
      let meta := if meta.getFileToStream then meta
                  else { meta with srcFileSize := resp.bodySize }
      let encMeta : encryptMetadata :=
        match resp.encryptionDataHdr with
        | .enc e =>
            { key := e.WrappedContentKey.EncryptionKey
              iv := e.ContentEncryptionIV
              matdesc := if resp.matdescHdr ≠ "" then resp.matdescHdr else "" }
        | .str _ => { key := "", iv := "", matdesc := "" }
      ({ meta with
          resStatus := .downloaded
          gcsFileHeaderDigest := resp.sfcDigest
          gcsFileHeaderContentLength := resp.respContentLength
          gcsFileHeaderEncryptionMeta := some encMeta }, none)

/-- `int(meta.parallel) - (retry * int(meta.parallel) / maxRetry)` floored at
`defaultConcurrency` by `intMax` (lines 97-98 of `storage_client.go`).
Go `/` on `int` truncates toward zero, i.e. `Int.tdiv`. -/
def reduceConcurrency (parallel : Int) (retry : Nat) (maxRetry : Int) : Int :=
  intMax defaultConcurrency (parallel - Int.tdiv ((retry : Int) * parallel) maxRetry)

/-- The responses the network would deliver to the (up to three) HTTP
requests one iteration of the `uploadOneFile` loop can issue: the header
probe, the upload inside the not-overwrite branch, and the upload at
line 84. -/
structure AttemptEnv where
  headerResp : HttpResp
  uploadAResp : HttpResp
  uploadBResp : HttpResp
  deriving Repr

/-- Outcome of one iteration of the `uploadOneFile` retry loop: either the
function returned (`done`), or the loop continues with a new context,
concurrency, retained error and an optional sleep (`next`).  `uploads`
counts `uploadFile` invocations made during the iteration. -/
inductive IterOut where
  | done (meta : fileMetadata) (err : Option GoError) (uploads : Nat)
  | next (meta : fileMetadata) (maxConcurrency : Int) (lastErr : Option GoError)
         (slept : Option Int) (uploads : Nat)
  deriving Repr

/-- One iteration of the `remoteStorageUtil.uploadOneFile` loop body
(lines 67-106 of `storage_client.go`), for the GCS client.  The sleep
duration `intMin(int(math.Exp2(float64(retry))), 16)` is recorded rather
than performed; `math.Exp2` is exact on these small exponents. -/
def uploadIterate (a : AttemptEnv) (meta : fileMetadata) (maxConcurrency : Int)
    (retry : Nat) (maxRetry : Int) : IterOut :=
  let step1 : (fileMetadata × Option GoError × Nat) ⊕ (fileMetadata × Nat) :=
    if meta.overwrite then .inr (meta, 0)
    else
      let r := gcsGetFileHeader meta a.headerResp
      if r.meta.resStatus = .notFoundFile then
        let (m2, _uploadErr) := gcsUploadFile r.meta a.uploadAResp
        if r.header.isSome ∧ m2.resStatus = .uploaded then
          .inl ({ m2 with dstFileSize := 0, resStatus := .skipped }, none, 1)
        else .inr (m2, 1)
      else if r.err.isSome then .inl (r.meta, r.err, 0)
      else if r.header.isSome ∧ r.meta.resStatus = .uploaded then
        .inl ({ r.meta with dstFileSize := 0, resStatus := .skipped }, none, 0)
      else .inr (r.meta, 0)
  match step1 with
  | .inl (m, e, u) => .done m e u
  | .inr (meta, u) =>
    let (meta, u) :=
      if meta.overwrite ∨ meta.resStatus = .notFoundFile then
        let (m2, _uploadErr) := gcsUploadFile meta a.uploadBResp
        (m2, u + 1)
      else (meta, u)
    if meta.resStatus = .uploaded ∨ meta.resStatus = .renewToken ∨
       meta.resStatus = .renewPresignedURL then
      .done meta none u
    else if meta.resStatus = .needRetry then
      let slept := if meta.noSleepingTime then none else some (intMin (2 ^ retry) 16)
      .next meta maxConcurrency meta.lastError slept u
    else if meta.resStatus = .needRetryWithLowerConcurrency then
      let mc := reduceConcurrency meta.parallel retry maxRetry
      let meta := { meta with lastMaxConcurrency := mc }
      let slept := if meta.noSleepingTime then none else some (intMin (2 ^ retry) 16)
      .next meta mc meta.lastError slept u
    else
      .next meta maxConcurrency meta.lastError none u

/-- The observable outcome of a whole `uploadOneFile` call: the final
context, the returned error, the sleeps performed (in seconds, in order),
and the number of loop iterations and `uploadFile` invocations. -/
structure UploadOutcome where
  meta : fileMetadata
  err : Option GoError
  sleeps : List Int
  iterations : Nat
  uploads : Nat
  deriving Repr

/-- The `for retry := 0; retry < maxRetry; retry++` loop of
`uploadOneFile`, by recursion on the remaining fuel.  `lastErr` is the
`lastErr = meta.lastError` accumulator updated at the end of every
iteration; on exhaustion the function returns it, or the generic
"unkown error uploading" error when it was never set (lines 107-111). -/
def uploadLoop (env : Nat → AttemptEnv) (maxRetry : Int) :
    Nat → Nat → fileMetadata → Int → Option GoError → List Int → Nat → Nat →
    UploadOutcome
  | 0, _retry, meta, _mc, lastErr, sleeps, iters, uploads =>
      { meta := meta
        err := match lastErr with
               | some e => some e
               | none => some (.unknownUploadError meta.realSrcFileName)
        sleeps := sleeps, iterations := iters, uploads := uploads }
  | fuel + 1, retry, meta, mc, _lastErr, sleeps, iters, uploads =>
      match uploadIterate (env retry) meta mc retry maxRetry with
      | .done m e u =>
          { meta := m, err := e, sleeps := sleeps
            iterations := iters + 1, uploads := uploads + u }
      | .next m mc' le sl u =>
          uploadLoop env maxRetry fuel (retry + 1) m mc' le (sleeps ++ sl.toList)
            (iters + 1) (uploads + u)

/-- `remoteStorageUtil.uploadOneFile` (lines 61-112): initial concurrency is
`int(meta.parallel)`, retry budget `defaultMaxRetry = 5`. -/
def uploadOneFile (env : Nat → AttemptEnv) (meta : fileMetadata) : UploadOutcome :=
  uploadLoop env (defaultMaxRetry : Nat) defaultMaxRetry 0 meta meta.parallel none [] 0 0

/-- The inner post-upload verification loop of `uploadOneFileWithRetry`
(lines 124-138): up to `fuel` header probes, 1 second apart, waiting for
the object to stop reporting `not-found`.  Returns the context and the
`retryInner` flag; on a successful probe the pre-probe status is restored
(line 135).  Probe errors are only logged. -/
def verifyInner (venv : Nat → HttpResp) : Nat → Nat → fileMetadata →
    fileMetadata × Bool
  | 0, _idx, meta => (meta, true)
  | fuel + 1, idx, meta =>
    let status := meta.resStatus
    let r := gcsGetFileHeader meta (venv idx)
    if r.meta.resStatus = .notFoundFile then
      verifyInner venv fuel (idx + 1) r.meta
    else
      ({ r.meta with resStatus := status }, false)

/-- Outcome of the outer loop of `uploadOneFileWithRetry`: either
`uploadOneFile` returned an error (propagated immediately), or the loop
finished with the final value of `retryOuter`. -/
inductive OuterOut where
  | errored (meta : fileMetadata) (e : GoError)
  | finished (meta : fileMetadata) (retryOuter : Bool)
  deriving Repr

/-- The outer `for i := 0; i < 10; i++` loop of `uploadOneFileWithRetry`
(lines 117-146).  `uenv i` supplies the attempt responses for the i-th
`uploadOneFile` call, `venv i j` the response for its j-th verification
probe. -/
def uploadRetryOuter (uenv : Nat → Nat → AttemptEnv) (venv : Nat → Nat → HttpResp) :
    Nat → Nat → fileMetadata → OuterOut
  | 0, _idx, meta => .finished meta true
  | fuel + 1, idx, meta =>
    let res := uploadOneFile (uenv idx) meta
    match res.err with
    | some e => .errored res.meta e
    | none =>
      let verified :=
        if res.meta.resStatus = .uploaded ∨ res.meta.resStatus = .skipped then
          verifyInner (venv idx) 10 0 res.meta
        else (res.meta, true)
      if verified.2 = false then .finished verified.1 false
      else uploadRetryOuter uenv venv fuel (idx + 1) verified.1

/-- `remoteStorageUtil.uploadOneFileWithRetry` (lines 114-152): when the
outer loop exhausts its bound with `retryOuter` still true, the status is
set to `errStatus` but a nil error is returned (lines 147-151). -/
def uploadOneFileWithRetry (uenv : Nat → Nat → AttemptEnv)
    (venv : Nat → Nat → HttpResp) (meta : fileMetadata) :
    fileMetadata × Option GoError :=
  match uploadRetryOuter uenv venv 10 0 meta with
  | .errored m e => (m, some e)
  | .finished m true => ({ m with resStatus := .errStatus }, none)
  | .finished m false => (m, none)

/-- A response that serves back the metadata headers stored with an
uploaded object: the round-trip scenario in which a later probe or
download observes exactly the headers `uploadFile` attached. -/
def echoHeaderResp (hdrs : List (String × HdrVal)) : HttpResp where
  statusCode := 200
  status := "200 OK"
  sfcDigest := hdrValString (mapGet hdrs gcsMetadataSfcDigest)
  contentLengthHdr := "0"
  encryptionDataHdr := mapGet hdrs gcsMetadataEncryptionDataProp
  matdescHdr := hdrValString (mapGet hdrs gcsMetadataMatdescKey)
  respContentLength := 0
  bodySize := 0

/-- Concrete responses used by the witnesses. -/
def respTransient503 : HttpResp := { statusCode := 503, status := "503 Service Unavailable" }

/-- 200 response with a parseable content-length header. -/
def respOk200 : HttpResp := { statusCode := 200, status := "200 OK" }

/-- 404 response. -/
def respNotFound404 : HttpResp := { statusCode := 404, status := "404 Not Found" }

/-- 400 response. -/
def respBadRequest400 : HttpResp := { statusCode := 400, status := "400 Bad Request" }

/-- 401 response. -/
def respUnauthorized401 : HttpResp := { statusCode := 401, status := "401 Unauthorized" }

/-- A non-200 status outside every special-cased class: it exercises the
fall-through error branch that leaves the status untouched. -/
def respTeapot418 : HttpResp := { statusCode := 418, status := "418 Teapot" }

/-- A context using downscoped-token (bearer) auth. -/
def wMetaBearer : fileMetadata := { client := some "tok" }

/-- A context with overwrite set, using a presigned URL. -/
def wMetaOverwrite : fileMetadata :=
  { overwrite := true, presignedURL := some "https://upload", realSrcFileName := "data.csv.gz" }

/-- A presigned-URL context with no overwrite. -/
def wMetaPresigned : fileMetadata := { presignedURL := some "https://upload" }

/-- A presigned-URL context carrying a stale error from an earlier attempt. -/
def wMetaStale : fileMetadata :=
  { presignedURL := some "https://upload"
    lastError := some (.statusError "503 Service Unavailable") }

/-- A context in the lowered-concurrency retry state. -/
def wMetaLower : fileMetadata :=
  { overwrite := true, presignedURL := some "https://upload", parallel := 8
    resStatus := .needRetryWithLowerConcurrency }

/-- A context whose status already records a completed upload. -/
def wMetaUploadedCached : fileMetadata :=
  { overwrite := false, resStatus := .uploaded, dstFileSize := 7 }

/-- A bearer-auth context for the verification-exhaustion scenario. -/
def wMetaVerify : fileMetadata := { overwrite := false, client := some "tok" }

/-- Encryption material for the round-trip witness. -/
def wEm : encryptMetadata := { key := "wrappedKey", iv := "ivbytes", matdesc := "smkId 1234" }

/-- An encrypting upload context. -/
def wMetaEnc : fileMetadata :=
  { presignedURL := some "https://upload", encryptMeta := some wEm }

/-- A context whose destination compression format is gzip (mixed case). -/
def wMetaGzip : fileMetadata := { dstCompressionType := some "GZip" }

/-- An environment answering every request with the transient 503. -/
def wEnvTransient : Nat → AttemptEnv :=
  fun _ => { headerResp := respTransient503, uploadAResp := respTransient503
             uploadBResp := respTransient503 }

/-- An environment answering every request with 200. -/
def wEnv200 : Nat → AttemptEnv :=
  fun _ => { headerResp := respOk200, uploadAResp := respOk200, uploadBResp := respOk200 }

/-- An attempt environment answering with the fall-through 418. -/
def wAttempt418 : AttemptEnv :=
  { headerResp := respTeapot418, uploadAResp := respTeapot418, uploadBResp := respTeapot418 }

/-- Per-outer-iteration upload environments answering 200. -/
def wUenv200 : Nat → Nat → AttemptEnv := fun _ => wEnv200

/-- Verification probes answering 404. -/
def wVenv404 : Nat → Nat → HttpResp := fun _ _ => respNotFound404

lemma isTransientCode_ne_200 {c : Nat} (h : isTransientCode c = true) : c ≠ 200 := by
  simp only [isTransientCode, Bool.or_eq_true, beq_iff_eq] at h
  rcases h with ((((h | h) | h) | h) | h) <;> omega

lemma gcsUploadHeaders_enc (meta : fileMetadata) (tok : String) (em : encryptMetadata)
    (he : meta.encryptMeta = some em) :
    mapGet (gcsUploadHeaders meta tok) gcsMetadataEncryptionDataProp =
      .enc (mkEncryptionData em) ∧
    mapGet (gcsUploadHeaders meta tok) gcsMetadataMatdescKey = .str em.matdesc := by
  unfold gcsUploadHeaders
  rw [he]
  by_cases ht : tok = "" <;>
    simp [ht, mapSet, mapGet, gcsMetadataEncryptionDataProp, gcsMetadataMatdescKey,
      gcsMetadataSfcDigest, gcsMetadataPref, httpHeaderContentEncoding]

lemma content_encoding_find (meta : fileMetadata) (tok : String) (c : String)
    (hc : meta.dstCompressionType = some c) :
    mapFind (gcsUploadHeaders meta tok) httpHeaderContentEncoding =
      some (.str (if goToLower c = "gzip" then "" else goToLower c)) := by
  unfold gcsUploadHeaders
  rw [hc]
  by_cases hg : goToLower c = "gzip" <;>
  rcases hme : meta.encryptMeta with _ | em <;>
  by_cases ht : tok = "" <;>
    simp [hg, ht, mapSet, mapFind, gcsMetadataEncryptionDataProp, gcsMetadataMatdescKey,
      gcsMetadataSfcDigest, gcsMetadataPref, httpHeaderContentEncoding]

lemma gcsUploadFile_transient (meta : fileMetadata) (resp : HttpResp) (tok : String)
    (hres : (match meta.presignedURL with
             | some _ => some ""
             | none => meta.client) = some tok)
    (ht : isTransientCode resp.statusCode = true) :
    gcsUploadFile meta resp =
      ({ meta with lastError := some (.statusError resp.status), resStatus := .needRetry },
       some (.statusError resp.status)) := by
  unfold gcsUploadFile
  rw [hres]
  simp [isTransientCode_ne_200 ht, ht]

lemma gcsGetFileHeader_bearer_200 (m : fileMetadata) (resp : HttpResp) (tok : String)
    (n : Int)
    (h1 : m.resStatus ≠ .uploaded) (h2 : m.resStatus ≠ .downloaded)
    (hp : m.presignedURL = none) (hc : m.client = some tok)
    (hcode : resp.statusCode = 200) (hlen : goAtoi resp.contentLengthHdr = some n) :
    gcsGetFileHeader m resp =
      { meta := { m with resStatus := .uploaded }
        header := some { digest := resp.sfcDigest, contentLength := n
                         encryptionMetadata :=
                           parseEncryptionMeta resp.encryptionDataHdr resp.matdescHdr }
        err := none, networkUsed := true } := by
  unfold gcsGetFileHeader
  rw [hp, hc]
  simp [h1, h2, hcode, hlen]

lemma gcsGetFileHeader_bearer_404 (m : fileMetadata) (resp : HttpResp) (tok : String)
    (h1 : m.resStatus ≠ .uploaded) (h2 : m.resStatus ≠ .downloaded)
    (hp : m.presignedURL = none) (hc : m.client = some tok)
    (hcode : resp.statusCode = 404) :
    gcsGetFileHeader m resp =
      { meta := { m with lastError := some (.statusError resp.status)
                         resStatus := .notFoundFile }
        header := none, err := some (.statusError resp.status), networkUsed := true } := by
  unfold gcsGetFileHeader
  rw [hp, hc]
  simp [h1, h2, hcode, isTransientCode]

lemma uploadIterate_overwrite_transient (a : AttemptEnv) (m : fileMetadata)
    (mc : Int) (r : Nat) (mr : Int) (tok : String)
    (hov : m.overwrite = true)
    (hres : (match m.presignedURL with
             | some _ => some ""
             | none => m.client) = some tok)
    (ht : isTransientCode a.uploadBResp.statusCode = true) :
    uploadIterate a m mc r mr =
      .next { m with lastError := some (.statusError a.uploadBResp.status)
                     resStatus := .needRetry }
        mc (some (.statusError a.uploadBResp.status))
        (if m.noSleepingTime then none else some (intMin (2 ^ r) 16)) 1 := by
  unfold uploadIterate
  simp [hov, gcsUploadFile_transient m a.uploadBResp tok hres ht]

lemma uploadLoop_iterations_le (env : Nat → AttemptEnv) (mr : Int) :
    ∀ fuel retry meta mc le sleeps iters uploads,
      (uploadLoop env mr fuel retry meta mc le sleeps iters uploads).iterations ≤
        iters + fuel := by
  intro fuel
  induction fuel with
  | zero => intro retry meta mc le sleeps iters uploads; simp [uploadLoop]
  | succ n ih =>
    intro retry meta mc le sleeps iters uploads
    unfold uploadLoop
    match h : uploadIterate (env retry) meta mc retry mr with
    | .done m e u =>
      show iters + 1 ≤ iters + (n + 1)
      omega
    | .next m mc' le' sl u =>
      simp only []
      calc (uploadLoop env mr n (retry+1) m mc' le' (sleeps ++ sl.toList) (iters+1) (uploads+u)).iterations
          ≤ (iters + 1) + n := ih (retry+1) m mc' le' (sleeps ++ sl.toList) (iters+1) (uploads+u)
        _ ≤ iters + (n+1) := by omega

lemma uploadLoop_transient_run (env : Nat → AttemptEnv) (mr : Int) (u : String)
    (htrans : ∀ r, isTransientCode (env r).uploadBResp.statusCode = true) :
    ∀ fuel retry meta mc le sleeps iters uploads,
      meta.overwrite = true → meta.presignedURL = some u →
      (uploadLoop env mr fuel retry meta mc le sleeps iters uploads).iterations =
          iters + fuel ∧
      (uploadLoop env mr fuel retry meta mc le sleeps iters uploads).uploads =
          uploads + fuel ∧
      (uploadLoop env mr fuel retry meta mc le sleeps iters uploads).sleeps =
          sleeps ++ (if meta.noSleepingTime then [] else
            (List.range fuel).map (fun i => intMin (2 ^ (retry + i)) 16)) ∧
      (uploadLoop env mr fuel retry meta mc le sleeps iters uploads).err ≠ none := by
  intro fuel
  induction fuel with
  | zero =>
    intro retry meta mc le sleeps iters uploads hov hp
    refine ⟨rfl, rfl, by simp [uploadLoop], ?_⟩
    unfold uploadLoop
    match le with
    | some e => simp
    | none => simp
  | succ n ih =>
    intro retry meta mc le sleeps iters uploads hov hp
    have hres : (match meta.presignedURL with
                 | some _ => some ""
                 | none => meta.client) = some "" := by rw [hp]
    have hstep := uploadIterate_overwrite_transient (env retry) meta mc retry mr ""
      hov hres (htrans retry)
    unfold uploadLoop
    rw [hstep]
    have hih := ih (retry + 1)
      { meta with lastError := some (.statusError (env retry).uploadBResp.status)
                  resStatus := .needRetry }
      mc (some (.statusError (env retry).uploadBResp.status))
      (sleeps ++ (if meta.noSleepingTime then none else
        some (intMin (2 ^ retry) 16)).toList)
      (iters + 1) (uploads + 1) hov hp
    refine ⟨by rw [hih.1]; omega, by rw [hih.2.1]; omega, ?_, hih.2.2.2⟩
    rw [hih.2.2.1]
    have hlist : (List.range (n + 1)).map (fun i => intMin (2 ^ (retry + i)) 16) =
        intMin (2 ^ retry) 16 ::
          (List.range n).map (fun i => intMin (2 ^ (retry + 1 + i)) 16) := by
      rw [List.range_succ_eq_map, List.map_cons, List.map_map]
      refine List.cons_eq_cons.mpr ⟨by simp, ?_⟩
      apply List.map_congr_left
      intro i _
      simp only [Function.comp_apply]
      have harith : retry + Nat.succ i = retry + 1 + i := by omega
      rw [harith]
    by_cases hns : meta.noSleepingTime
    · simp [hns]
    · simp only [hns, Bool.false_eq_true, if_false, Option.toList_some]
      rw [hlist]
      simp

lemma gcsGetFileHeader_uploaded_no_err (m : fileMetadata) (p : HttpResp) :
    (gcsGetFileHeader m p).meta.resStatus = .uploaded →
    (gcsGetFileHeader m p).err = none := by
  unfold gcsGetFileHeader
  split
  · simp
  next h1 =>
    split
    · intro h; simp at h
    · split
      · intro h; exact absurd (Or.inl h) h1
      · split
        · split
          · intro h; simp at h
          · split
            · intro h; simp at h
            · split
              · intro h; simp at h
              · intro h; simp at h
        · split
          · intro h; exact absurd (Or.inl h) h1
          · simp

lemma uploadIterate_skip (a : AttemptEnv) (meta : fileMetadata) (mc : Int)
    (r : Nat) (mr : Int)
    (hov : meta.overwrite = false)
    (hst : (gcsGetFileHeader meta a.headerResp).meta.resStatus = .uploaded)
    (hhdr : (gcsGetFileHeader meta a.headerResp).header.isSome) :
    uploadIterate a meta mc r mr =
      .done ({ (gcsGetFileHeader meta a.headerResp).meta with
               dstFileSize := 0, resStatus := .skipped }) none 0 := by
  have herr := gcsGetFileHeader_uploaded_no_err meta a.headerResp hst
  unfold uploadIterate
  simp [hov, hst, herr, hhdr]

lemma gcsUploadFile_other (meta : fileMetadata) (resp : HttpResp) (tok : String)
    (hres : (match meta.presignedURL with
             | some _ => some ""
             | none => meta.client) = some tok)
    (hne : resp.statusCode ≠ 200)
    (hnt : isTransientCode resp.statusCode = false)
    (hn400 : ¬(tok = "" ∧ resp.statusCode = 400 ∧ meta.lastError = none))
    (hn401 : ¬(tok ≠ "" ∧ isTokenExpired resp = true)) :
    gcsUploadFile meta resp =
      ({ meta with lastError := some (.statusError resp.status) },
       some (.statusError resp.status)) := by
  unfold gcsUploadFile
  rw [hres]
  simp only []
  rw [if_pos hne, if_neg (by simp [hnt]), if_neg hn400, if_neg hn401]

lemma uploadIterate_lower_concurrency (a : AttemptEnv) (meta : fileMetadata)
    (mc : Int) (r : Nat) (mr : Int) (tok : String)
    (hov : meta.overwrite = true)
    (hres : (match meta.presignedURL with
             | some _ => some ""
             | none => meta.client) = some tok)
    (hst : meta.resStatus = .needRetryWithLowerConcurrency)
    (hne : a.uploadBResp.statusCode ≠ 200)
    (hnt : isTransientCode a.uploadBResp.statusCode = false)
    (hn400 : ¬(tok = "" ∧ a.uploadBResp.statusCode = 400 ∧ meta.lastError = none))
    (hn401 : ¬(tok ≠ "" ∧ isTokenExpired a.uploadBResp = true)) :
    uploadIterate a meta mc r mr =
      .next ({ meta with
                lastError := some (.statusError a.uploadBResp.status)
                lastMaxConcurrency := reduceConcurrency meta.parallel r mr })
        (reduceConcurrency meta.parallel r mr)
        (some (.statusError a.uploadBResp.status))
        (if meta.noSleepingTime then none else some (intMin (2 ^ r) 16)) 1 := by
  unfold uploadIterate
  simp [hov, hst, gcsUploadFile_other meta a.uploadBResp tok hres hne hnt hn400 hn401]

lemma reduceConcurrency_tdiv_nat (p : Nat) (r : Nat) :
    Int.tdiv ((r : Int) * (p : Int)) 5 = ((r * p / 5 : Nat) : Int) := by
  have h1 : ((r : Int) * (p : Int)) = ((r * p : Nat) : Int) := by push_cast; ring
  rw [h1]
  rfl

lemma reduceConcurrency_antitone (P : Int) (hP : 0 ≤ P) (r : Nat) :
    reduceConcurrency P (r + 1) 5 ≤ reduceConcurrency P r 5 := by
  obtain ⟨p, rfl⟩ := Int.eq_ofNat_of_zero_le hP
  unfold reduceConcurrency defaultConcurrency
  rw [reduceConcurrency_tdiv_nat, reduceConcurrency_tdiv_nat]
  have hdiv : r * p / 5 ≤ (r + 1) * p / 5 :=
    Nat.div_le_div_right (Nat.mul_le_mul_right p (Nat.le_succ r))
  unfold intMax
  split_ifs <;> omega

lemma gcsNativeDownloadFile_404 (m : fileMetadata) (resp : HttpResp) (tok : String)
    (hc : m.client = some tok)
    (hcode : resp.statusCode = 404) :
    gcsNativeDownloadFile m resp =
      ({ m with lastError := some (.statusError resp.status)
                resStatus := .notFoundFile },
       some (.statusError resp.status)) := by
  unfold gcsNativeDownloadFile
  rcases hp : m.presignedURL with _ | u
  · simp [hp, hc, hcode, isTransientCode]
  · by_cases hu : u = "" <;> simp [hp, hc, hu, hcode, isTransientCode]

lemma gcsUploadFile_renewToken (meta : fileMetadata) (resp : HttpResp) (tok : String)
    (hp : meta.presignedURL = none) (hc : meta.client = some tok) (htok : tok ≠ "")
    (hcode : resp.statusCode = 401) :
    gcsUploadFile meta resp =
      ({ meta with lastError := some (.statusError resp.status)
                   resStatus := .renewToken },
       some (.statusError resp.status)) := by
  unfold gcsUploadFile
  rw [hp, hc]
  simp [hcode, isTransientCode, isTokenExpired, htok]

lemma gcsUploadFile_renewPresigned (meta : fileMetadata) (resp : HttpResp) (u : String)
    (hp : meta.presignedURL = some u) (hle : meta.lastError = none)
    (hcode : resp.statusCode = 400) :
    gcsUploadFile meta resp =
      ({ meta with lastError := some (.statusError resp.status)
                   resStatus := .renewPresignedURL },
       some (.statusError resp.status)) := by
  unfold gcsUploadFile
  rw [hp]
  simp [hcode, hle, isTransientCode]

lemma gcsGetFileHeader_bearer_401 (m : fileMetadata) (resp : HttpResp) (tok : String)
    (h1 : m.resStatus ≠ .uploaded) (h2 : m.resStatus ≠ .downloaded)
    (hp : m.presignedURL = none) (hc : m.client = some tok)
    (hcode : resp.statusCode = 401) :
    gcsGetFileHeader m resp =
      { meta := { m with lastError := some (.statusError resp.status)
                         resStatus := .renewToken }
        header := none, err := some (.statusError resp.status), networkUsed := true } := by
  unfold gcsGetFileHeader
  rw [hp, hc]
  simp [h1, h2, hcode, isTransientCode, isTokenExpired]

lemma uploadOneFile_skip (env : Nat → AttemptEnv) (meta : fileMetadata)
    (hov : meta.overwrite = false)
    (hst : (gcsGetFileHeader meta (env 0).headerResp).meta.resStatus = .uploaded)
    (hhdr : (gcsGetFileHeader meta (env 0).headerResp).header.isSome) :
    uploadOneFile env meta =
      { meta := { (gcsGetFileHeader meta (env 0).headerResp).meta with
                   dstFileSize := 0, resStatus := .skipped }
        err := none, sleeps := [], iterations := 1, uploads := 0 } := by
  show uploadLoop env 5 5 0 meta meta.parallel none [] 0 0 = _
  unfold uploadLoop
  rw [uploadIterate_skip (env 0) meta meta.parallel 0 5 hov hst hhdr]

lemma verifyInner_404 (venv : Nat → HttpResp) (tok : String)
    (hv : ∀ j, (venv j).statusCode = 404) :
    ∀ fuel idx m, m.presignedURL = none → m.client = some tok →
      m.resStatus ≠ .uploaded → m.resStatus ≠ .downloaded →
      ∃ m', verifyInner venv fuel idx m = (m', true) ∧
        m'.presignedURL = none ∧ m'.client = some tok ∧
        m'.overwrite = m.overwrite ∧
        m'.resStatus ≠ .uploaded ∧ m'.resStatus ≠ .downloaded := by
  intro fuel
  induction fuel with
  | zero =>
    intro idx m h1 h2 h3 h4
    exact ⟨m, rfl, h1, h2, rfl, h3, h4⟩
  | succ n ih =>
    intro idx m h1 h2 h3 h4
    have hprobe := gcsGetFileHeader_bearer_404 m (venv idx) tok h3 h4 h1 h2 (hv idx)
    obtain ⟨m', heq, hp', hc', hov', hu', hd'⟩ := ih (idx + 1)
      { m with lastError := some (.statusError (venv idx).status)
               resStatus := .notFoundFile }
      (by simpa using h1) (by simpa using h2) (by simp) (by simp)
    refine ⟨m', ?_, hp', hc', by simpa using hov', hu', hd'⟩
    unfold verifyInner
    rw [hprobe]
    simpa using heq

lemma uploadRetryOuter_exhaust (uenv : Nat → Nat → AttemptEnv)
    (venv : Nat → Nat → HttpResp) (tok : String)
    (hu200 : ∀ i, ((uenv i 0).headerResp).statusCode = 200)
    (hulen : ∀ i, ∃ n, goAtoi ((uenv i 0).headerResp).contentLengthHdr = some n)
    (hv : ∀ i j, (venv i j).statusCode = 404) :
    ∀ fuel idx m, m.overwrite = false → m.presignedURL = none →
      m.client = some tok →
      m.resStatus ≠ .uploaded → m.resStatus ≠ .downloaded →
      ∃ m', uploadRetryOuter uenv venv fuel idx m = .finished m' true := by
  intro fuel
  induction fuel with
  | zero => intro idx m _ _ _ _ _; exact ⟨m, rfl⟩
  | succ n ih =>
    intro idx m hov h1 h2 h3 h4
    obtain ⟨len, hlen⟩ := hulen idx
    have hprobe := gcsGetFileHeader_bearer_200 m ((uenv idx 0).headerResp) tok len
      h3 h4 h1 h2 (hu200 idx) hlen
    have hst : (gcsGetFileHeader m ((uenv idx) 0).headerResp).meta.resStatus =
        .uploaded := by rw [hprobe]
    have hhdr : (gcsGetFileHeader m ((uenv idx) 0).headerResp).header.isSome := by
      rw [hprobe]
      rfl
    have hone2 : uploadOneFile (uenv idx) m =
        { meta := { m with dstFileSize := 0, resStatus := .skipped }
          err := none, sleeps := [], iterations := 1, uploads := 0 } := by
      rw [uploadOneFile_skip (uenv idx) m hov hst hhdr, hprobe]
    obtain ⟨m2, hver, hm2p, hm2c, hm2ov, hm2u, hm2d⟩ :=
      verifyInner_404 (venv idx) tok (hv idx) 10 0
        { m with dstFileSize := 0, resStatus := .skipped }
        (by simpa using h1) (by simpa using h2) (by simp) (by simp)
    obtain ⟨m', hres⟩ := ih (idx + 1) m2
      (by rw [hm2ov]; simpa using hov) hm2p hm2c hm2u hm2d
    refine ⟨m', ?_⟩
    unfold uploadRetryOuter
    rw [hone2]
    simpa [hver] using hres


lemma gcsNativeDownloadFile_200_enc (m : fileMetadata) (resp : HttpResp)
    (tok : String) (e : encryptionData)
    (hc : m.client = some tok) (hcode : resp.statusCode = 200)
    (hhdr : resp.encryptionDataHdr = .enc e) :
    (gcsNativeDownloadFile m resp).2 = none ∧
    (gcsNativeDownloadFile m resp).1.gcsFileHeaderEncryptionMeta =
      some { key := e.WrappedContentKey.EncryptionKey
             iv := e.ContentEncryptionIV
             matdesc := if resp.matdescHdr ≠ "" then resp.matdescHdr else "" } ∧
    (gcsNativeDownloadFile m resp).1.resStatus = .downloaded := by
  unfold gcsNativeDownloadFile
  rcases hp : m.presignedURL with _ | u
  · by_cases hgs : m.getFileToStream <;> simp [hp, hc, hcode, hhdr, hgs]
  · by_cases hu : u = "" <;> by_cases hgs : m.getFileToStream <;>
      simp [hp, hc, hu, hcode, hhdr, hgs]

/-- C1: an upload attempt answered with 403, 408, 429, 500 or 503 makes
`uploadFile` set status `needRetry` and a non-nil `lastError` and return a
non-nil error; `uploadOneFile` then retries: with every attempt transient
it runs exactly 5 iterations, sleeping `min(2^attempt, 16)` seconds after
each (none when `noSleepingTime` is set) and returns the retained error;
and no call of `uploadOneFile` ever exceeds 5 iterations. -/
theorem upload_transient_retry_schedule
    (meta : fileMetadata) (resp : HttpResp) (tok : String)
    (hres : (match meta.presignedURL with
             | some _ => some ""
             | none => meta.client) = some tok)
    (ht : isTransientCode resp.statusCode = true)
    (env : Nat → AttemptEnv) (m2 : fileMetadata) (u : String)
    (hov : m2.overwrite = true) (hp : m2.presignedURL = some u)
    (htrans : ∀ r, isTransientCode (env r).uploadBResp.statusCode = true)
    (env' : Nat → AttemptEnv) (m' : fileMetadata) :
    ((gcsUploadFile meta resp).1.resStatus = .needRetry ∧
     (gcsUploadFile meta resp).1.lastError ≠ none ∧
     (gcsUploadFile meta resp).2 ≠ none) ∧
    ((uploadOneFile env m2).iterations = 5 ∧
     (uploadOneFile env m2).err ≠ none ∧
     (uploadOneFile env m2).sleeps =
       (if m2.noSleepingTime then [] else [1, 2, 4, 8, 16])) ∧
    (uploadOneFile env' m').iterations ≤ 5 := by
  refine ⟨?_, ?_, ?_⟩
  · rw [gcsUploadFile_transient meta resp tok hres ht]
    simp
  · have h := uploadLoop_transient_run env ((defaultMaxRetry : Nat) : Int) u htrans
      defaultMaxRetry 0 m2 m2.parallel none [] 0 0 hov hp
    have hform : uploadOneFile env m2 =
        uploadLoop env ((defaultMaxRetry : Nat) : Int) defaultMaxRetry 0 m2
          m2.parallel none [] 0 0 := rfl
    rw [hform]
    refine ⟨by rw [h.1]; rfl, h.2.2.2, ?_⟩
    rw [h.2.2.1]
    have hmap : (List.range defaultMaxRetry).map (fun i => intMin (2 ^ (0 + i)) 16) =
        [1, 2, 4, 8, 16] := by decide
    rw [hmap]
    simp
  · exact uploadLoop_iterations_le env' ((defaultMaxRetry : Nat) : Int)
      defaultMaxRetry 0 m' m'.parallel none [] 0 0

/-- Witness for C1 at the concrete bearer context, 503 responses and the
overwrite context. -/
theorem upload_transient_retry_schedule_witness :
    ((gcsUploadFile wMetaBearer respTransient503).1.resStatus = .needRetry ∧
     (gcsUploadFile wMetaBearer respTransient503).1.lastError ≠ none ∧
     (gcsUploadFile wMetaBearer respTransient503).2 ≠ none) ∧
    ((uploadOneFile wEnvTransient wMetaOverwrite).iterations = 5 ∧
     (uploadOneFile wEnvTransient wMetaOverwrite).err ≠ none ∧
     (uploadOneFile wEnvTransient wMetaOverwrite).sleeps =
       (if wMetaOverwrite.noSleepingTime then [] else [1, 2, 4, 8, 16])) ∧
    (uploadOneFile wEnv200 wMetaBearer).iterations ≤ 5 :=
  upload_transient_retry_schedule wMetaBearer respTransient503 "tok" rfl rfl
    wEnvTransient wMetaOverwrite "https://upload" rfl rfl (fun _ => rfl)
    wEnv200 wMetaBearer

/-- C2: when an attempt at retry index `r` leaves the status
`needRetryWithLowerConcurrency`, the loop body computes the reduced
concurrency `max(1, P - r*P/5)` (Go truncated integer division) from the
declared parallelism `P` alone — a deterministic function of
`(P, r, maxRetry)` — persists it in `lastMaxConcurrency`, and the value is
monotonically non-increasing in `r`. -/
theorem lower_concurrency_formula
    (P : Int) (hP : 0 ≤ P) (r : Nat) (meta : fileMetadata) (a : AttemptEnv)
    (mc : Int) (tok : String)
    (hpar : meta.parallel = P) (hov : meta.overwrite = true)
    (hres : (match meta.presignedURL with
             | some _ => some ""
             | none => meta.client) = some tok)
    (hst : meta.resStatus = .needRetryWithLowerConcurrency)
    (hcode : a.uploadBResp.statusCode = 418) :
    uploadIterate a meta mc r 5 =
      .next ({ meta with
                lastError := some (.statusError a.uploadBResp.status)
                lastMaxConcurrency := reduceConcurrency P r 5 })
        (reduceConcurrency P r 5)
        (some (.statusError a.uploadBResp.status))
        (if meta.noSleepingTime then none else some (intMin (2 ^ r) 16)) 1 ∧
    reduceConcurrency P r 5 = intMax 1 (P - Int.tdiv ((r : Int) * P) 5) ∧
    reduceConcurrency P (r + 1) 5 ≤ reduceConcurrency P r 5 := by
  refine ⟨?_, rfl, reduceConcurrency_antitone P hP r⟩
  rw [← hpar]
  exact uploadIterate_lower_concurrency a meta mc r 5 tok hov hres hst
    (by rw [hcode]; omega) (by rw [hcode]; rfl)
    (by rw [hcode]; rintro ⟨-, h, -⟩; omega)
    (by simp [isTokenExpired, hcode])

/-- Witness for C2 at `P = 8`, `r = 1`: the reduced concurrency is
`max(1, 8 - 8/5) = 7`. -/
theorem lower_concurrency_formula_witness :
    uploadIterate wAttempt418 wMetaLower 8 1 5 =
      .next ({ wMetaLower with
                lastError := some (.statusError "418 Teapot")
                lastMaxConcurrency := 7 })
        7 (some (.statusError "418 Teapot")) (some 2) 1 ∧
    reduceConcurrency 8 1 5 = intMax 1 (8 - Int.tdiv (1 * 8) 5) ∧
    reduceConcurrency 8 (1 + 1) 5 ≤ reduceConcurrency 8 1 5 :=
  lower_concurrency_formula 8 (by decide) 1 wMetaLower wAttempt418 8 "" rfl rfl
    rfl rfl rfl

/-- C3: with overwrite unset, when the header probe returns a non-nil
header and leaves the context status `uploaded`, `uploadOneFile` zeroes
the recorded destination size, sets status `skipped`, and returns a nil
error without calling the upload primitive. -/
theorem skip_existing_upload
    (env : Nat → AttemptEnv) (meta : fileMetadata)
    (hov : meta.overwrite = false)
    (hhdr : (gcsGetFileHeader meta (env 0).headerResp).header.isSome)
    (hst : (gcsGetFileHeader meta (env 0).headerResp).meta.resStatus = .uploaded) :
    (uploadOneFile env meta).err = none ∧
    (uploadOneFile env meta).meta.resStatus = .skipped ∧
    (uploadOneFile env meta).meta.dstFileSize = 0 ∧
    (uploadOneFile env meta).uploads = 0 := by
  rw [uploadOneFile_skip env meta hov hst hhdr]
  simp

/-- Witness for C3 at a context whose status already records an upload
(the probe short-circuits to the cached header). -/
theorem skip_existing_upload_witness :
    (uploadOneFile wEnv200 wMetaUploadedCached).err = none ∧
    (uploadOneFile wEnv200 wMetaUploadedCached).meta.resStatus = .skipped ∧
    (uploadOneFile wEnv200 wMetaUploadedCached).meta.dstFileSize = 0 ∧
    (uploadOneFile wEnv200 wMetaUploadedCached).uploads = 0 :=
  skip_existing_upload wEnv200 wMetaUploadedCached rfl rfl rfl

/-- C4 counterexample: the claim says a metadata probe answered 404
returns no error, but `getFileHeader` sets `lastError` for every non-200
response before branching (lines 90-91), so the 404 probe returns the
status error: at this concrete input the status is `notFoundFile` and the
returned error is non-nil. -/
theorem probe_404_error_counterexample :
    (gcsGetFileHeader wMetaBearer respNotFound404).meta.resStatus = .notFoundFile ∧
    (gcsGetFileHeader wMetaBearer respNotFound404).err =
      some (.statusError "404 Not Found") := by decide

/-- C4 (amended): a 404 on the metadata probe sets status `notFoundFile`
and returns a non-nil error, and a 404 on download sets status
`notFoundFile` and returns a non-nil error — the two primitives agree on
the error behavior in this code. -/
theorem status404_probe_and_download
    (m1 : fileMetadata) (r1 : HttpResp) (tok1 : String)
    (h1u : m1.resStatus ≠ .uploaded) (h1d : m1.resStatus ≠ .downloaded)
    (h1p : m1.presignedURL = none) (h1c : m1.client = some tok1)
    (hc1 : r1.statusCode = 404)
    (m2 : fileMetadata) (r2 : HttpResp) (tok2 : String)
    (h2c : m2.client = some tok2) (hc2 : r2.statusCode = 404) :
    ((gcsGetFileHeader m1 r1).meta.resStatus = .notFoundFile ∧
     (gcsGetFileHeader m1 r1).err ≠ none) ∧
    ((gcsNativeDownloadFile m2 r2).1.resStatus = .notFoundFile ∧
     (gcsNativeDownloadFile m2 r2).2 ≠ none) := by
  rw [gcsGetFileHeader_bearer_404 m1 r1 tok1 h1u h1d h1p h1c hc1,
      gcsNativeDownloadFile_404 m2 r2 tok2 h2c hc2]
  simp

/-- Witness for the amended C4 at the concrete bearer context. -/
theorem status404_probe_and_download_witness :
    ((gcsGetFileHeader wMetaBearer respNotFound404).meta.resStatus = .notFoundFile ∧
     (gcsGetFileHeader wMetaBearer respNotFound404).err ≠ none) ∧
    ((gcsNativeDownloadFile wMetaBearer respNotFound404).1.resStatus = .notFoundFile ∧
     (gcsNativeDownloadFile wMetaBearer respNotFound404).2 ≠ none) :=
  status404_probe_and_download wMetaBearer respNotFound404 "tok"
    (by decide) (by decide) rfl rfl rfl
    wMetaBearer respNotFound404 "tok" rfl rfl

/-- C5 counterexample: the claim says every upload with no bearer token
answered 400 yields `renewPresignedURL`, but the code also requires
`meta.lastError == nil`; at this concrete context carrying a stale error
the status is left unchanged. -/
theorem renew_presigned_stale_error_counterexample :
    wMetaStale.presignedURL.isSome ∧ wMetaStale.lastError ≠ none ∧
    respBadRequest400.statusCode = 400 ∧
    (gcsUploadFile wMetaStale respBadRequest400).1.resStatus ≠ .renewPresignedURL := by
  decide

/-- C5 (amended): a 401 on upload with a non-empty bearer token, or on a
bearer header-fetch, sets status `renewToken` with a non-nil error; a 400
on a presigned upload whose context has a nil last error sets status
`renewPresignedURL` with a non-nil error. -/
theorem renew_status_mapping
    (mU : fileMetadata) (rU : HttpResp) (tokU : String)
    (hUp : mU.presignedURL = none) (hUc : mU.client = some tokU) (hUt : tokU ≠ "")
    (hU401 : rU.statusCode = 401)
    (mH : fileMetadata) (rH : HttpResp) (tokH : String)
    (hHu : mH.resStatus ≠ .uploaded) (hHd : mH.resStatus ≠ .downloaded)
    (hHp : mH.presignedURL = none) (hHc : mH.client = some tokH)
    (hH401 : rH.statusCode = 401)
    (mP : fileMetadata) (rP : HttpResp) (uP : String)
    (hPp : mP.presignedURL = some uP) (hPle : mP.lastError = none)
    (hP400 : rP.statusCode = 400) :
    ((gcsUploadFile mU rU).1.resStatus = .renewToken ∧
     (gcsUploadFile mU rU).1.lastError ≠ none ∧
     (gcsUploadFile mU rU).2 ≠ none) ∧
    ((gcsGetFileHeader mH rH).meta.resStatus = .renewToken ∧
     (gcsGetFileHeader mH rH).err ≠ none) ∧
    ((gcsUploadFile mP rP).1.resStatus = .renewPresignedURL ∧
     (gcsUploadFile mP rP).2 ≠ none) := by
  rw [gcsUploadFile_renewToken mU rU tokU hUp hUc hUt hU401,
      gcsGetFileHeader_bearer_401 mH rH tokH hHu hHd hHp hHc hH401,
      gcsUploadFile_renewPresigned mP rP uP hPp hPle hP400]
  simp

/-- Witness for the amended C5. -/
theorem renew_status_mapping_witness :
    ((gcsUploadFile wMetaBearer respUnauthorized401).1.resStatus = .renewToken ∧
     (gcsUploadFile wMetaBearer respUnauthorized401).1.lastError ≠ none ∧
     (gcsUploadFile wMetaBearer respUnauthorized401).2 ≠ none) ∧
    ((gcsGetFileHeader wMetaBearer respUnauthorized401).meta.resStatus = .renewToken ∧
     (gcsGetFileHeader wMetaBearer respUnauthorized401).err ≠ none) ∧
    ((gcsUploadFile wMetaPresigned respBadRequest400).1.resStatus = .renewPresignedURL ∧
     (gcsUploadFile wMetaPresigned respBadRequest400).2 ≠ none) :=
  renew_status_mapping wMetaBearer respUnauthorized401 "tok" rfl rfl (by decide) rfl
    wMetaBearer respUnauthorized401 "tok" (by decide) (by decide) rfl rfl rfl
    wMetaPresigned respBadRequest400 "https://upload" rfl rfl rfl

/-- C6: when every verification probe keeps reporting `notFoundFile` until
both the inner and the outer loop bounds are exhausted,
`uploadOneFileWithRetry` sets the context status to `errStatus` yet
returns a nil error. -/
theorem verification_exhausted_soft_error
    (uenv : Nat → Nat → AttemptEnv) (venv : Nat → Nat → HttpResp)
    (meta : fileMetadata) (tok : String)
    (hov : meta.overwrite = false) (hp : meta.presignedURL = none)
    (hc : meta.client = some tok)
    (hu : meta.resStatus ≠ .uploaded) (hd : meta.resStatus ≠ .downloaded)
    (hu200 : ∀ i, ((uenv i 0).headerResp).statusCode = 200)
    (hulen : ∀ i, ∃ n, goAtoi ((uenv i 0).headerResp).contentLengthHdr = some n)
    (hv : ∀ i j, (venv i j).statusCode = 404) :
    (uploadOneFileWithRetry uenv venv meta).2 = none ∧
    (uploadOneFileWithRetry uenv venv meta).1.resStatus = .errStatus := by
  obtain ⟨m', hres⟩ :=
    uploadRetryOuter_exhaust uenv venv tok hu200 hulen hv 10 0 meta hov hp hc hu hd
  unfold uploadOneFileWithRetry
  rw [hres]
  simp

/-- Witness for C6: 200 upload probes, 404 verification probes. -/
theorem verification_exhausted_soft_error_witness :
    (uploadOneFileWithRetry wUenv200 wVenv404 wMetaVerify).2 = none ∧
    (uploadOneFileWithRetry wUenv200 wVenv404 wMetaVerify).1.resStatus = .errStatus :=
  verification_exhausted_soft_error wUenv200 wVenv404 wMetaVerify "tok"
    rfl rfl rfl (by decide) (by decide)
    (fun _ => rfl) (fun _ => ⟨0, rfl⟩) (fun _ _ => rfl)

/-- C7: the encryption envelope (content key, IV) serialized by
`uploadFile` into the `encryptiondata` JSON header together with the
separate `matdesc` header is recovered as an equal key/IV/descriptor
triple when the same headers are parsed back, both by `getFileHeader` and
by `nativeDownloadFile`. -/
theorem envelope_roundtrip
    (meta : fileMetadata) (em : encryptMetadata) (tok : String)
    (he : meta.encryptMeta = some em)
    (m2 : fileMetadata) (tok2 : String)
    (h2u : m2.resStatus ≠ .uploaded) (h2d : m2.resStatus ≠ .downloaded)
    (h2p : m2.presignedURL = none) (h2c : m2.client = some tok2)
    (m3 : fileMetadata) (tok3 : String) (h3c : m3.client = some tok3) :
    ((gcsGetFileHeader m2 (echoHeaderResp (gcsUploadHeaders meta tok))).header.map
       fileHeader.encryptionMetadata) = some (some em) ∧
    (gcsNativeDownloadFile m3
        (echoHeaderResp (gcsUploadHeaders meta tok))).1.gcsFileHeaderEncryptionMeta =
      some em ∧
    (gcsNativeDownloadFile m3 (echoHeaderResp (gcsUploadHeaders meta tok))).2 = none := by
  obtain ⟨hencH, hmatH⟩ := gcsUploadHeaders_enc meta tok em he
  have hechoenc : (echoHeaderResp (gcsUploadHeaders meta tok)).encryptionDataHdr =
      .enc (mkEncryptionData em) := by
    show mapGet (gcsUploadHeaders meta tok) gcsMetadataEncryptionDataProp = _
    rw [hencH]
  have hechomat : (echoHeaderResp (gcsUploadHeaders meta tok)).matdescHdr =
      em.matdesc := by
    show hdrValString (mapGet (gcsUploadHeaders meta tok) gcsMetadataMatdescKey) = _
    rw [hmatH]
    rfl
  have hparse : parseEncryptionMeta
      (echoHeaderResp (gcsUploadHeaders meta tok)).encryptionDataHdr
      (echoHeaderResp (gcsUploadHeaders meta tok)).matdescHdr = some em := by
    rw [hechoenc, hechomat]
    rcases em with ⟨k, iv, md⟩
    by_cases hm : md = "" <;> simp [parseEncryptionMeta, mkEncryptionData, hm]
  have hcode : (echoHeaderResp (gcsUploadHeaders meta tok)).statusCode = 200 := rfl
  have hlen : goAtoi (echoHeaderResp (gcsUploadHeaders meta tok)).contentLengthHdr =
      some 0 := rfl
  have hprobe := gcsGetFileHeader_bearer_200 m2
    (echoHeaderResp (gcsUploadHeaders meta tok)) tok2 0 h2u h2d h2p h2c hcode hlen
  obtain ⟨hderr, hdmeta, hdst⟩ := gcsNativeDownloadFile_200_enc m3
    (echoHeaderResp (gcsUploadHeaders meta tok)) tok3 (mkEncryptionData em)
    h3c hcode hechoenc
  refine ⟨?_, ?_, hderr⟩
  · rw [hprobe]
    simp [hparse]
  · rw [hdmeta]
    rw [hechomat]
    rcases em with ⟨k, iv, md⟩
    by_cases hm : md = "" <;> simp [mkEncryptionData, hm]

/-- Witness for C7 at a concrete key/IV/descriptor triple. -/
theorem envelope_roundtrip_witness :
    ((gcsGetFileHeader wMetaBearer (echoHeaderResp (gcsUploadHeaders wMetaEnc ""))).header.map
       fileHeader.encryptionMetadata) = some (some wEm) ∧
    (gcsNativeDownloadFile wMetaBearer
        (echoHeaderResp (gcsUploadHeaders wMetaEnc ""))).1.gcsFileHeaderEncryptionMeta =
      some wEm ∧
    (gcsNativeDownloadFile wMetaBearer
        (echoHeaderResp (gcsUploadHeaders wMetaEnc ""))).2 = none :=
  envelope_roundtrip wMetaEnc wEm "" rfl wMetaBearer "tok" (by decide) (by decide)
    rfl rfl wMetaBearer "tok" rfl

/-- C8 counterexample: the claim says a gzip compression format yields an
absent content-encoding header, but the upload header map contains the
content-encoding key bound to the empty string — present, merely empty. -/
theorem gzip_header_empty_counterexample :
    mapFind (gcsUploadHeaders wMetaGzip "") httpHeaderContentEncoding =
      some (.str "") ∧
    mapFind (gcsUploadHeaders wMetaGzip "") httpHeaderContentEncoding ≠ none := by
  decide

/-- C9: a header probe on a context holding a presigned URL whose status
records no completed transfer issues no network request, sets the status
to `notFoundFile`, and returns a nil header with a nil error. -/
theorem presigned_probe_no_network
    (meta : fileMetadata) (resp : HttpResp)
    (hp : meta.presignedURL.isSome)
    (h1 : meta.resStatus ≠ .uploaded) (h2 : meta.resStatus ≠ .downloaded) :
    gcsGetFileHeader meta resp =
      { meta := { meta with resStatus := .notFoundFile }
        header := none, err := none, networkUsed := false } := by
  unfold gcsGetFileHeader
  rw [if_neg (by simp [h1, h2]), if_pos hp]

/-- Witness for C9 at a fresh presigned context. -/
theorem presigned_probe_no_network_witness :
    gcsGetFileHeader wMetaPresigned respOk200 =
      { meta := { wMetaPresigned with resStatus := .notFoundFile }
        header := none, err := none, networkUsed := false } :=
  presigned_probe_no_network wMetaPresigned respOk200 rfl (by decide) (by decide)

/-- C10: an unencrypted upload answered 200 makes `uploadFile` set status
`uploaded` and record the destination size while itself returning a
non-nil error (unmarshalling the absent envelope header fails), and
`uploadOneFile` still returns a nil error because it consults only the
status. -/
theorem upload_success_ignores_primitive_error
    (meta : fileMetadata) (env : Nat → AttemptEnv) (u : String)
    (hov : meta.overwrite = true) (hp : meta.presignedURL = some u)
    (henc : meta.encryptMeta = none)
    (h200 : (env 0).uploadBResp.statusCode = 200) :
    (gcsUploadFile meta (env 0).uploadBResp).2 ≠ none ∧
    (gcsUploadFile meta (env 0).uploadBResp).1.resStatus = .uploaded ∧
    (gcsUploadFile meta (env 0).uploadBResp).1.dstFileSize = meta.uploadSize ∧
    (uploadOneFile env meta).err = none ∧
    (uploadOneFile env meta).meta.resStatus = .uploaded := by
  have henchdr : mapGet (gcsUploadHeaders meta "") gcsMetadataEncryptionDataProp =
      .str "" := by
    unfold gcsUploadHeaders
    rw [henc]
    rcases meta.dstCompressionType with _ | c <;>
      simp [mapSet, mapGet, gcsMetadataEncryptionDataProp, gcsMetadataSfcDigest,
        gcsMetadataPref, httpHeaderContentEncoding]
  have hup : gcsUploadFile meta (env 0).uploadBResp =
      ({ meta with
          dstFileSize := meta.uploadSize
          resStatus := .uploaded
          gcsFileHeaderDigest :=
            hdrValString (mapGet (gcsUploadHeaders meta "") gcsFileHeaderDigestKey)
          gcsFileHeaderContentLength := meta.uploadSize },
       some .jsonUnmarshalEmpty) := by
    unfold gcsUploadFile
    rw [hp]
    simp [h200, henchdr, jsonUnmarshalIntoEncryptMeta]
  have hiter : uploadIterate (env 0) meta meta.parallel 0 5 =
      .done ({ meta with
                dstFileSize := meta.uploadSize
                resStatus := .uploaded
                gcsFileHeaderDigest :=
                  hdrValString (mapGet (gcsUploadHeaders meta "") gcsFileHeaderDigestKey)
                gcsFileHeaderContentLength := meta.uploadSize }) none 1 := by
    unfold uploadIterate
    simp [hov, hup]
  have hloop : uploadOneFile env meta =
      { meta := { meta with
                   dstFileSize := meta.uploadSize
                   resStatus := .uploaded
                   gcsFileHeaderDigest :=
                     hdrValString (mapGet (gcsUploadHeaders meta "") gcsFileHeaderDigestKey)
                   gcsFileHeaderContentLength := meta.uploadSize }
        err := none, sleeps := [], iterations := 1, uploads := 1 } := by
    show uploadLoop env 5 5 0 meta meta.parallel none [] 0 0 = _
    unfold uploadLoop
    rw [hiter]
  exact ⟨by rw [hup]; simp, by rw [hup], by rw [hup], by rw [hloop], by rw [hloop]⟩

/-- Witness for C10 at the concrete overwrite context with 200 responses. -/
theorem upload_success_ignores_primitive_error_witness :
    (gcsUploadFile wMetaOverwrite (wEnv200 0).uploadBResp).2 ≠ none ∧
    (gcsUploadFile wMetaOverwrite (wEnv200 0).uploadBResp).1.resStatus = .uploaded ∧
    (gcsUploadFile wMetaOverwrite (wEnv200 0).uploadBResp).1.dstFileSize =
      wMetaOverwrite.uploadSize ∧
    (uploadOneFile wEnv200 wMetaOverwrite).err = none ∧
    (uploadOneFile wEnv200 wMetaOverwrite).meta.resStatus = .uploaded :=
  upload_success_ignores_primitive_error wMetaOverwrite wEnv200 "https://upload"
    rfl rfl rfl rfl

/-- C8 (amended): a compression format whose lower-cased name is "gzip"
yields a content-encoding header that is present with the empty-string
value (not absent); any other non-nil format yields the header set to its
lower-cased name. -/
theorem content_encoding_mapping (meta : fileMetadata) (tok : String) (c : String)
    (hc : meta.dstCompressionType = some c) :
    mapFind (gcsUploadHeaders meta tok) httpHeaderContentEncoding =
      some (.str (if goToLower c = "gzip" then "" else goToLower c)) :=
  content_encoding_find meta tok c hc

/-- Witness for the amended C8 at the mixed-case format name "GZip". -/
theorem content_encoding_mapping_witness :
    mapFind (gcsUploadHeaders wMetaGzip "") httpHeaderContentEncoding =
      some (.str (if goToLower "GZip" = "gzip" then "" else goToLower "GZip")) :=
  content_encoding_mapping wMetaGzip "" "GZip" rfl
